import Mathlib

/-!
Shallow embedding of the category/link resolution engine of the
huaweicloud-service-xmind-translate scraper
(`src/scraper/api_category_fetcher.py` and `src/markdown_generator.py`),
together with theorems checking the specification's claims about it.

HTTP requests and the HTML parser (`requests` / `BeautifulSoup`) are the
external world: a `World` maps a URL to a status code plus the parsed view of
the page (raw text, anchors, title).  Everything the Python code itself
computes — substring tests, URL construction, link filtering, retry loops,
visited-set bookkeeping, the strategy cascade — is translated function by
function below.
-/

namespace HwApiFetch

/-- Base site URL (`APICategoryFetcher.BASE_URL`). -/
def BASE : String := "https://support.huaweicloud.com"

/-- Substring occurrence on character lists (Python's `needle in hay`). -/
def occursIn (n : List Char) : List Char → Bool
  | [] => n.isEmpty
  | c :: t => n.isPrefixOf (c :: t) || occursIn n t

/-- Python `needle in hay` on strings. -/
def strContains (hay needle : String) : Bool := occursIn needle.data hay.data

/-- Python `str.lower()` (the scraper's lowered needles are all ASCII). -/
def strLower (s : String) : String := ⟨s.data.map Char.toLower⟩

/-- Python slicing `s[:n]`. -/
def strTake (s : String) (n : Nat) : String := ⟨s.data.take n⟩

/-- Python `len(s)` (counts code points, as `List Char` length does). -/
def strLen (s : String) : Nat := s.data.length

/-- Python `s.startswith(t)`. -/
def strStarts (s t : String) : Bool := t.data.isPrefixOf s.data

/-- Python `s.endswith(t)`. -/
def strEndsWith (s t : String) : Bool := t.data.reverse.isPrefixOf s.data.reverse

/-- String equality test (Python `==` on `str`). -/
def strEqb (a b : String) : Bool := a.data == b.data

/-- Python `s in collection` for a collection of strings (models membership
in the `visited_urls` / `seen_urls` sets). -/
def memStr (l : List String) (s : String) : Bool := l.any (fun t => strEqb t s)

/-- Model of `urljoin(BASE_URL, href)` for the href shapes the site uses: an
absolute URL is kept as is, anything else is resolved against the bare base
origin (the base URL has no path component). -/
def urljoin (base href : String) : String :=
  if strContains href "://" then href
  else if strStarts href "/" then base ++ href
  else base ++ "/" ++ href

/-- Characters after the first occurrence of `sep`, `none` when absent. -/
def dropThroughSub (sep : List Char) : List Char → Option (List Char)
  | [] => if sep.isEmpty then some [] else none
  | c :: t =>
    if sep.isPrefixOf (c :: t) then some ((c :: t).drop sep.length)
    else dropThroughSub sep t

/-- Path component of a URL (model of `urlparse(url).path`): everything from
the first `/` after the scheme separator. -/
def urlPath (url : String) : List Char :=
  match dropThroughSub "://".data url.data with
  | none => url.data
  | some rest => rest.dropWhile (· ≠ '/')

/-- Python `str.split(c)`. -/
def splitOnChar (c : Char) : List Char → List (List Char)
  | [] => [[]]
  | a :: t =>
    if a = c then [] :: splitOnChar c t
    else
      match splitOnChar c t with
      | [] => [[a]]
      | h :: r => (a :: h) :: r

/-- Python `[p for p in parsed.path.split('/') if p]`. -/
def pathParts (url : String) : List (List Char) :=
  (splitOnChar '/' (urlPath url)).filter (fun l => !l.isEmpty)

/-- Python `path_parts[-1].split('.')[0]` — the filename stem of a URL. -/
def filenameOf (url : String) : String :=
  match (pathParts url).getLast? with
  | some l => ⟨l.takeWhile (· ≠ '.')⟩
  | none => ""

/-! ### Basic lemmas about the string helpers -/

theorem isPrefixOf_self_append (n t : List Char) : n.isPrefixOf (n ++ t) = true := by
  induction n with
  | nil => simp [List.isPrefixOf]
  | cons c m ih => simpa [List.isPrefixOf] using ih

theorem occursIn_append_right (n t : List Char) : occursIn n (n ++ t) = true := by
  cases n with
  | nil => cases t <;> simp [occursIn, List.isEmpty, List.isPrefixOf]
  | cons c m =>
    have h : (c :: m) ++ t = c :: (m ++ t) := rfl
    rw [h]
    simp only [occursIn, Bool.or_eq_true]
    left
    have h2 := isPrefixOf_self_append (c :: m) t
    simpa using h2

theorem occursIn_append_mid (a n b : List Char) : occursIn n (a ++ (n ++ b)) = true := by
  induction a with
  | nil => simpa using occursIn_append_right n b
  | cons c t ih =>
    have h : (c :: t) ++ (n ++ b) = c :: (t ++ (n ++ b)) := rfl
    rw [h]
    simp only [occursIn, Bool.or_eq_true]
    right
    exact ih

theorem strContains_append_mid (x y z : String) : strContains (x ++ (y ++ z)) y = true := by
  simp only [strContains, String.data_append]
  exact occursIn_append_mid x.data y.data z.data

theorem strContains_append_right (y z : String) : strContains (y ++ z) y = true := by
  simp only [strContains, String.data_append]
  exact occursIn_append_right y.data z.data

theorem listBeq_append_left (x a b : List Char) : ((x ++ a) == (x ++ b)) = (a == b) := by
  induction x with
  | nil => rfl
  | cons c t ih => simpa using ih

theorem strEqb_iff (a b : String) : strEqb a b = true ↔ a = b := by
  constructor
  · intro h
    exact String.ext (by simpa [strEqb] using h)
  · intro h
    subst h
    simp [strEqb]

theorem strEqb_self (a : String) : strEqb a a = true := by
  simp [strEqb]

theorem strEqb_append_left (x a b : String) : strEqb (x ++ a) (x ++ b) = strEqb a b := by
  simp only [strEqb, String.data_append]
  exact listBeq_append_left x.data a.data b.data

theorem strEqb_false_of_ne (a b : String) (h : a ≠ b) : strEqb a b = false := by
  cases hc : strEqb a b
  · rfl
  · exact absurd ((strEqb_iff a b).mp hc) h

theorem append_right_injective_str (x a b : String) (h : x ++ a = x ++ b) : a = b := by
  have hd : x.data ++ a.data = x.data ++ b.data := by
    have := congrArg String.data h
    simpa [String.data_append] using this
  exact String.ext (List.append_cancel_left hd)

/-! ### Data model -/

/-- An anchor extracted from a page (`<a href=...>` with its display text). -/
structure Link where
  text : String
  href : String
deriving Repr, DecidableEq

/-- The parsed view of a fetched page that the engine inspects: raw text,
anchor elements with non-empty text and target, and the `<title>` tag. -/
structure Page where
  body : String
  links : List Link
  title : Option String
deriving Repr, DecidableEq

/-- Outcome of one HTTP request: a status code with the parsed page, or a
raised transport exception (`requests` timeout / connection error). -/
inductive FetchOutcome where
  | ok (status : Nat) (page : Page)
  | exn
deriving Repr, DecidableEq

/-- The network, deterministic per URL for the three request forms the
scraper uses (`session.get`, `session.head`, streamed `session.get`). -/
structure World where
  get : String → FetchOutcome
  head : String → FetchOutcome
  streamGet : String → FetchOutcome

/-- Mutable engine state: the `visited_urls` set plus a chronological log of
issued requests (the log exists only so that theorems can speak about which
fetches happened). -/
structure Eng where
  visited : List String
  events : List String
deriving Repr, DecidableEq

def logEvent (st : Eng) (u : String) : Eng := { st with events := st.events ++ [u] }

def addVisited (st : Eng) (u : String) : Eng := { st with visited := st.visited ++ [u] }

/-- An API page entry (`{'name', 'uri', 'url'}` in the generator,
`{'name', 'url', 'api_id'}` in the fetcher; `uri` doubles for both). -/
structure ApiLink where
  name : String
  uri : String
  url : String
deriving Repr, DecidableEq

/-- A category/subcategory node as the fetcher builds it
(`{'name', 'url', 'category_id', 'subcategories', 'apis'}`). -/
inductive Subcat where
  | mk (name url categoryId : String) (subcategories : List Subcat) (apis : List ApiLink)
deriving Repr

def Subcat.name : Subcat → String
  | .mk n _ _ _ _ => n

def Subcat.url : Subcat → String
  | .mk _ u _ _ _ => u

def Subcat.categoryId : Subcat → String
  | .mk _ _ c _ _ => c

/-- A freshly discovered node: the fetcher always creates subcategory dicts
with empty `subcategories` and `apis` lists. -/
def mkLeaf (name url categoryId : String) : Subcat := .mk name url categoryId [] []

/-! ### `_get_api_product_code` (claim C10) -/

/-- The `code_mapping` dict of `_get_api_product_code`. -/
def codeMapping : List (String × String) := [("cloudpipeline", "pipeline")]

/-- `_get_api_product_code`: `code_mapping.get(product_code, product_code)`. -/
def getApiProductCode (p : String) : String :=
  match codeMapping.find? (fun q => strEqb q.1 p) with
  | some q => q.2
  | none => p

/-! ### The URL de-duplication pass (claim C7)

Both subcategory fetchers end with the same loop: a `seen_urls` set, keeping
a subcategory only when its URL was not seen before. -/

def dedupGo (seen : List String) : List Subcat → List Subcat
  | [] => []
  | s :: t =>
    if memStr seen s.url then dedupGo seen t
    else s :: dedupGo (seen ++ [s.url]) t

/-- The `seen_urls` de-duplication loop at the end of
`_fetch_subcategories_from_api_dir` and `_fetch_subcategories_from_overview`. -/
def dedupByUrl (l : List Subcat) : List Subcat := dedupGo [] l

/-- Specification-side description of the pass: keep exactly the first
occurrence of each URL, in input order. -/
def keepFirstByUrl : List Subcat → List Subcat
  | [] => []
  | s :: t =>
    s :: keepFirstByUrl (t.filter (fun x => !strEqb x.url s.url))
termination_by l => l.length
decreasing_by
  simp only [List.length_cons]
  exact Nat.lt_succ_of_le (List.length_filter_le _ _)

theorem strEqb_comm (a b : String) : strEqb a b = strEqb b a := by
  by_cases h : a = b
  · subst h; rfl
  · rw [strEqb_false_of_ne a b h, strEqb_false_of_ne b a (Ne.symm h)]

theorem memStr_append_single (seen : List String) (u x : String) :
    memStr (seen ++ [u]) x = (memStr seen x || strEqb u x) := by
  simp [memStr, List.any_append]

theorem keepFirst_nil : keepFirstByUrl [] = [] := by
  simp [keepFirstByUrl]

theorem keepFirst_cons (s : Subcat) (t : List Subcat) :
    keepFirstByUrl (s :: t)
      = s :: keepFirstByUrl (t.filter (fun x => !strEqb x.url s.url)) := by
  simp [keepFirstByUrl]

theorem dedupGo_eq_keepFirst (l : List Subcat) :
    ∀ seen, dedupGo seen l = keepFirstByUrl (l.filter (fun s => !memStr seen s.url)) := by
  induction l with
  | nil => intro seen; simp [dedupGo, keepFirst_nil]
  | cons s t ih =>
    intro seen
    by_cases h : memStr seen s.url
    · rw [show dedupGo seen (s :: t) = dedupGo seen t by simp [dedupGo, h]]
      rw [ih seen]
      congr 1
      simp [List.filter_cons, h]
    · rw [show dedupGo seen (s :: t) = s :: dedupGo (seen ++ [s.url]) t by
        simp [dedupGo, h]]
      rw [ih (seen ++ [s.url])]
      have hf : (s :: t).filter (fun x => !memStr seen x.url)
          = s :: t.filter (fun x => !memStr seen x.url) := by
        simp [List.filter_cons, h]
      rw [hf, keepFirst_cons, List.filter_filter]
      congr 2
      apply List.filter_congr
      intro x _
      rw [memStr_append_single]
      rw [strEqb_comm s.url x.url]
      cases hm : memStr seen x.url <;> cases he : strEqb x.url s.url <;> simp

theorem dedup_eq_keepFirst (l : List Subcat) : dedupByUrl l = keepFirstByUrl l := by
  rw [dedupByUrl, dedupGo_eq_keepFirst l []]
  congr 1
  apply List.filter_eq_self.mpr
  intro a _
  simp [memStr]

theorem keepFirst_filter_comm (p : String → Bool) (l : List Subcat) :
    (keepFirstByUrl l).filter (fun x => p x.url)
      = keepFirstByUrl (l.filter (fun x => p x.url)) := by
  induction l using keepFirstByUrl.induct with
  | case1 => simp [keepFirst_nil]
  | case2 s t ih =>
    rw [keepFirst_cons]
    by_cases h : p s.url
    · rw [show (s :: keepFirstByUrl (t.filter (fun x => !strEqb x.url s.url))).filter
            (fun x => p x.url)
          = s :: (keepFirstByUrl (t.filter (fun x => !strEqb x.url s.url))).filter
            (fun x => p x.url) from by simp [List.filter_cons, h]]
      rw [ih]
      rw [show (s :: t).filter (fun x => p x.url) = s :: t.filter (fun x => p x.url) from by
        simp [List.filter_cons, h]]
      rw [keepFirst_cons]
      rw [List.filter_filter, List.filter_filter]
      congr 2
      apply List.filter_congr
      intro x _
      cases hq : strEqb x.url s.url <;> cases hp : p x.url <;> simp
    · rw [show (s :: keepFirstByUrl (t.filter (fun x => !strEqb x.url s.url))).filter
            (fun x => p x.url)
          = (keepFirstByUrl (t.filter (fun x => !strEqb x.url s.url))).filter
            (fun x => p x.url) from by
        simp [List.filter_cons, h]]
      rw [ih]
      rw [show (s :: t).filter (fun x => p x.url) = t.filter (fun x => p x.url) from by
        simp [List.filter_cons, h]]
      rw [List.filter_filter]
      congr 1
      apply List.filter_congr
      intro x _
      cases hq : strEqb x.url s.url
      · simp
      · have hx : x.url = s.url := (strEqb_iff _ _).mp hq
        rw [hx]
        simp [h]

theorem filter_self_idem (q : Subcat → Bool) (l : List Subcat) :
    (l.filter q).filter q = l.filter q := by
  apply List.filter_eq_self.mpr
  intro a ha
  exact (List.mem_filter.mp ha).2

theorem keepFirst_idem (l : List Subcat) :
    keepFirstByUrl (keepFirstByUrl l) = keepFirstByUrl l := by
  induction l using keepFirstByUrl.induct with
  | case1 => rw [keepFirst_nil, keepFirst_nil]
  | case2 s t ih =>
    rw [keepFirst_cons, keepFirst_cons]
    congr 1
    rw [keepFirst_filter_comm (fun u => !strEqb u s.url)]
    rw [filter_self_idem]
    exact ih

/-- C7: the URL-deduplication pass over a subcategory list keeps exactly the
first occurrence of each URL, in input order; a list with two entries of the
same URL yields exactly one node; and the pass is idempotent. -/
theorem c7_dedup_keeps_first_occurrence_and_idempotent :
    (∀ l : List Subcat, dedupByUrl l = keepFirstByUrl l)
    ∧ (∀ a b : Subcat, dedupByUrl [a, b] = if a.url = b.url then [a] else [a, b])
    ∧ (∀ l : List Subcat, dedupByUrl (dedupByUrl l) = dedupByUrl l) := by
  refine ⟨dedup_eq_keepFirst, ?_, ?_⟩
  · intro a b
    by_cases h : a.url = b.url
    · have hb : strEqb a.url b.url = true := (strEqb_iff _ _).mpr h
      simp [dedupByUrl, dedupGo, memStr, hb, if_pos h]
    · have hb : strEqb a.url b.url = false := strEqb_false_of_ne _ _ h
      simp [dedupByUrl, dedupGo, memStr, hb, if_neg h]
  · intro l
    rw [dedup_eq_keepFirst, dedup_eq_keepFirst, keepFirst_idem]

/-- C10: the API product-code used to locate docs equals the input code for
every input except `cloudpipeline`, which is mapped to `pipeline`. -/
theorem c10_api_product_code_mapping :
    ∀ p : String, getApiProductCode p = if p = "cloudpipeline" then "pipeline" else p := by
  intro p
  by_cases h : p = "cloudpipeline"
  · subst h; rfl
  · simp only [getApiProductCode, codeMapping, List.find?,
      strEqb_false_of_ne _ _ (Ne.symm h), if_neg h]

/-! ### The bounded-retry fetch loop (claim C3)

`_fetch_subcategories_from_api_dir` and `_fetch_subcategories_from_overview`
(and the generator's `_fetch_apis_from_category` / `_extract_api_info`) all
run the same `for attempt in range(3)` loop: break on status 200, keep looping
on a non-200 response, and on a raised exception sleep one second when the
attempt is not the last, or return the caller's empty result when it is. -/

/-- Trace of one run of the retry loop: requests issued, `time.sleep(1)`
calls made, the response variable after the loop, and whether the final
`except` branch returned early. -/
structure RetryTrace where
  calls : Nat
  sleeps : Nat
  response : Option (Nat × Page)
  earlyReturn : Bool
deriving Repr

/-- The retry loop itself, over the outcome of each attempt. -/
def retryFetch (a : Nat → FetchOutcome) : RetryTrace :=
  match a 0 with
  | .ok s0 p0 =>
    if s0 = 200 then ⟨1, 0, some (s0, p0), false⟩
    else
      match a 1 with
      | .ok s1 p1 =>
        if s1 = 200 then ⟨2, 0, some (s1, p1), false⟩
        else
          match a 2 with
          | .ok s2 p2 => ⟨3, 0, some (s2, p2), false⟩
          | .exn => ⟨3, 0, some (s1, p1), true⟩
      | .exn =>
        match a 2 with
        | .ok s2 p2 => ⟨3, 1, some (s2, p2), false⟩
        | .exn => ⟨3, 1, some (s0, p0), true⟩
  | .exn =>
    match a 1 with
    | .ok s1 p1 =>
      if s1 = 200 then ⟨2, 1, some (s1, p1), false⟩
      else
        match a 2 with
        | .ok s2 p2 => ⟨3, 1, some (s2, p2), false⟩
        | .exn => ⟨3, 1, some (s1, p1), true⟩
    | .exn =>
      match a 2 with
      | .ok s2 p2 => ⟨3, 2, some (s2, p2), false⟩
      | .exn => ⟨3, 2, none, true⟩

/-- The composite success condition: no early return and a final 200 response
(the code's `if not response or response.status_code != 200` check). -/
def retrySucceeded (t : RetryTrace) : Bool :=
  !t.earlyReturn &&
    (match t.response with
     | some (s, _) => s == 200
     | none => false)

/-- Whether an attempt outcome is a raised transport exception. -/
def isExn : FetchOutcome → Bool
  | .exn => true
  | .ok _ _ => false

/-! ### `_verify_url` and the probing fallback (claims C1, C2) -/

/-- `_get_api_base_path`. -/
def getApiBasePath (apiDocUrl productCode : String) : String :=
  if strContains apiDocUrl ("/api/" ++ productCode ++ "/") then "/api/" ++ productCode ++ "/"
  else "/api-" ++ productCode ++ "/"

/-- `_verify_url`: always issues a GET (it never consults the visited set),
and accepts only a 200 response whose text is longer than 1000 characters and
whose first 1000 characters carry no JavaScript-redirect marker. -/
def verifyUrl (w : World) (st : Eng) (url : String) : Bool × Eng :=
  let st1 := logEvent st url
  match w.get url with
  | .exn => (false, st1)
  | .ok s pg =>
    if s = 200 then
      let hasRedirect := strContains (strTake pg.body 1000) "window.location.href"
        || strContains (strTake pg.body 1000) "location.href"
      (decide (1000 < strLen pg.body) && !hasRedirect, st1)
    else (false, st1)

/-- Candidate numeric suffixes probed by `_try_build_subcategories_directly`:
`{i:04d}` for 1–10, then `{i:02d}00` for 1–10. -/
def probeNumbers : List String :=
  ["0001", "0002", "0003", "0004", "0005", "0006", "0007", "0008", "0009", "0010",
   "0100", "0200", "0300", "0400", "0500", "0600", "0700", "0800", "0900", "1000"]

/-- One candidate probe of `_try_build_subcategories_directly`: a HEAD
request; when (and only when) the HEAD did not yield 200, a streamed GET; on a
streamed 200, a full GET whose outcome decides whether and under which name
the candidate is appended.  Returns the appended node, if any.  Note that the
whole decision sits in the `if not status_ok:` branch of the HEAD check, so a
candidate whose HEAD request returns 200 falls through with no node. -/
def probeCandidate (w : World) (st : Eng) (testUrl pattern num : String) :
    Option Subcat × Eng :=
  let st1 := logEvent st testUrl
  match w.head testUrl with
  | .exn => (none, st1)
  | .ok sh _ =>
    if sh = 200 then (none, st1)
    else
      let st2 := logEvent st1 testUrl
      match w.streamGet testUrl with
      | .exn => (none, st2)
      | .ok sg _ =>
        if sg = 200 then
          let st3 := logEvent st2 testUrl
          match w.get testUrl with
          | .exn => (some (mkLeaf ("API分类 " ++ num) testUrl (pattern ++ num)), st3)
          | .ok sf pg =>
            if sf = 200 then
              let lower := strLower pg.body
              let isCaptchaPage := strContains lower "captcha" || strContains lower "tcaptcha"
              let hasRedirectPage := strContains (strTake pg.body 1000) "window.location.href"
                || strContains (strTake pg.body 1000) "location.href"
              let isSmallPage := decide (strLen pg.body < 1000)
              let isHelpCenter := strContains (strTake pg.body 500) "帮助中心"
                || strContains (strTake lower 500) "help center"
              if isCaptchaPage || hasRedirectPage || isSmallPage || isHelpCenter then
                (some (mkLeaf ("API分类 " ++ num) testUrl (pattern ++ num)), st3)
              else
                let title :=
                  match pg.title with
                  | some t => t
                  | none => "API分类 " ++ num
                if !strContains (strLower title) "404" && !strContains (strLower title) "error"
                    && !strContains title "帮助中心" then
                  (some (mkLeaf title testUrl (pattern ++ num)), st3)
                else (none, st3)
            else (none, st3)
        else (none, st2)

/-- The probe loop over all candidate suffixes. -/
def probeAll (w : World) (st : Eng) (apiBasePath pattern : String) :
    List String → List Subcat × Eng
  | [] => ([], st)
  | num :: rest =>
    let testUrl := BASE ++ apiBasePath ++ pattern ++ num ++ ".html"
    match probeCandidate w st testUrl pattern num with
    | (some s, st1) =>
      let r := probeAll w st1 apiBasePath pattern rest
      (s :: r.1, r.2)
    | (none, st1) => probeAll w st1 apiBasePath pattern rest

/-- `_try_build_subcategories_directly`: infer the numbering family from the
directory URL and probe the twenty candidate sibling URLs. -/
def tryBuildSubcategoriesDirectly (w : World) (st : Eng) (productCode apiDirUrl : String) :
    List Subcat × Eng :=
  let apiBasePath := getApiBasePath apiDirUrl productCode
  let pattern :=
    if strContains apiDirUrl (productCode ++ "_02_0000") then productCode ++ "_02_"
    else if strContains apiDirUrl (productCode ++ "_api_0000") then productCode ++ "_api_"
    else productCode ++ "_02_"
  probeAll w st apiBasePath pattern probeNumbers

/-! ### The subcategory fetchers (claims C2, C4) -/

/-- Text keywords excluded in `_fetch_subcategories_from_overview`. -/
def overviewExclude : List String :=
  ["上一篇", "下一篇", "表", "查看PDF", "PDF", "#", "javascript:", "上一页", "下一页",
   "API参考", "概览"]

/-- Text keywords excluded in `_fetch_subcategories_from_api_dir`. -/
def dirExclude : List String :=
  ["上一篇", "下一篇", "表", "查看PDF", "PDF", "#", "javascript:", "上一页", "下一页", "概览"]

/-- The loop body of the `_fetch_subcategories_from_overview` link scan
(accepts the `topic_` family only). -/
def overviewKeep (visited : List String) (apiBasePath : String) (lk : Link) : Option Subcat :=
  if lk.text = "" || lk.href = "" then none
  else if overviewExclude.any (fun k => strContains lk.text k) then none
  else if strContains lk.href apiBasePath && strContains lk.href "topic_" then
    let fullUrl := urljoin BASE lk.href
    if strEndsWith fullUrl ".pdf" || memStr visited fullUrl then none
    else if 2 ≤ (pathParts fullUrl).length then
      let filename := filenameOf fullUrl
      if strStarts filename "topic_" then some (mkLeaf lk.text fullUrl filename)
      else none
    else none
  else none

/-- Link scan of `_fetch_subcategories_from_overview`. -/
def overviewScan (visited : List String) (apiBasePath : String) : List Link → List Subcat
  | [] => []
  | lk :: rest =>
    match overviewKeep visited apiBasePath lk with
    | some s => s :: overviewScan visited apiBasePath rest
    | none => overviewScan visited apiBasePath rest

/-- `_fetch_subcategories_from_overview`. -/
def fetchSubcategoriesFromOverview (w : World) (st : Eng) (overviewUrl productCode : String) :
    List Subcat × Eng :=
  let apiBasePath := getApiBasePath overviewUrl productCode
  if memStr st.visited overviewUrl then ([], st)
  else
    let st1 := addVisited st overviewUrl
    let t := retryFetch (fun _ => w.get overviewUrl)
    let st2 := { st1 with events := st1.events ++ List.replicate t.calls overviewUrl }
    match t.earlyReturn, t.response with
    | false, some (s, pg) =>
      if s = 200 then (dedupByUrl (overviewScan st2.visited apiBasePath pg.links), st2)
      else ([], st2)
    | _, _ => ([], st2)

/-- Directory-marker URL patterns (`api_dir_patterns`). -/
def apiDirPatterns (p : String) : List String :=
  [p ++ "_02_0000", p ++ "_api_0000", p ++ "_03_0000"]

/-- Candidate subcategory URL families (`subcategory_patterns`), with the
family inferred from the directory URL moved to the front. -/
def subcategoryPatterns (p apiDirUrl : String) : List String :=
  let base := [p ++ "_02_", p ++ "_api_", p ++ "_03_", "topic_"]
  let current :=
    if strContains apiDirUrl (p ++ "_02_0000") then some (p ++ "_02_")
    else if strContains apiDirUrl (p ++ "_api_0000") then some (p ++ "_api_")
    else none
  match current with
  | some c => c :: base.filter (fun q => !strEqb q c)
  | none => base

/-- The `for subcategory_pattern in subcategory_patterns` loop of
`_fetch_subcategories_from_api_dir` for one link: `none` when the link is
rejected or a `break` fires without appending a node. -/
def scanPatterns (visited : List String) (p text href : String) :
    List String → Option Subcat
  | [] => none
  | pat :: rest =>
    if strContains href pat then
      if (apiDirPatterns p).any (fun q => strContains href q) then none
      else
        let fullUrl := urljoin BASE href
        if strEndsWith fullUrl ".pdf" || memStr visited fullUrl then none
        else if 2 ≤ (pathParts fullUrl).length then
          let filename := filenameOf fullUrl
          if strEqb pat "topic_" then
            if strStarts filename "topic_" then some (mkLeaf text fullUrl filename)
            else scanPatterns visited p text href rest
          else if strStarts filename pat && !strEndsWith filename "_0000" then
            some (mkLeaf text fullUrl filename)
          else scanPatterns visited p text href rest
        else scanPatterns visited p text href rest
    else scanPatterns visited p text href rest

/-- The loop body of the `_fetch_subcategories_from_api_dir` link scan. -/
def dirKeep (visited : List String) (p : String) (pats : List String) (apiBasePath : String)
    (lk : Link) : Option Subcat :=
  if lk.text = "" || lk.href = "" then none
  else if dirExclude.any (fun k => strContains lk.text k) then none
  else if strContains lk.href apiBasePath then scanPatterns visited p lk.text lk.href pats
  else none

/-- Subcategory link scan of `_fetch_subcategories_from_api_dir`. -/
def dirScan (visited : List String) (p : String) (pats : List String) (apiBasePath : String) :
    List Link → List Subcat
  | [] => []
  | lk :: rest =>
    match dirKeep visited p pats apiBasePath lk with
    | some s => s :: dirScan visited p pats apiBasePath rest
    | none => dirScan visited p pats apiBasePath rest

/-- The scan for an "API概览" link that precedes the subcategory scan. -/
def findOverviewLink (apiBasePath : String) : List Link → Option String
  | [] => none
  | lk :: rest =>
    if strContains lk.href apiBasePath
        && (strContains lk.text "API概览" || strContains lk.text "概览")
        && !strContains lk.text "如何调用" then
      some (urljoin BASE lk.href)
    else findOverviewLink apiBasePath rest

/-- `_fetch_subcategories_from_api_dir`: visited guard, bounded-retry fetch,
captcha/redirect detection (switching to direct URL probing), optional
"API概览" indirection, subcategory link scan and URL dedup. -/
def fetchSubcategoriesFromApiDir (w : World) (st : Eng) (apiDirUrl productCode : String) :
    List Subcat × Eng :=
  let apiBasePath := getApiBasePath apiDirUrl productCode
  if memStr st.visited apiDirUrl then ([], st)
  else
    let st1 := addVisited st apiDirUrl
    let t := retryFetch (fun _ => w.get apiDirUrl)
    let st2 := { st1 with events := st1.events ++ List.replicate t.calls apiDirUrl }
    match t.earlyReturn, t.response with
    | false, some (s, pg) =>
      if s = 200 then
        let isCaptchaPage := strContains (strLower pg.body) "captcha"
          || strContains (strLower pg.body) "tcaptcha" || decide (strLen pg.body < 1000)
        let hasRedirect := strContains (strTake pg.body 1000) "window.location.href"
          || strContains (strTake pg.body 1000) "location.href"
        if isCaptchaPage || hasRedirect then
          tryBuildSubcategoriesDirectly w st2 productCode apiDirUrl
        else
          match findOverviewLink apiBasePath pg.links with
          | some overviewUrl => fetchSubcategoriesFromOverview w st2 overviewUrl productCode
          | none =>
            (dedupByUrl (dirScan st2.visited productCode
              (subcategoryPatterns productCode apiDirUrl) apiBasePath pg.links), st2)
      else ([], st2)
    | _, _ => ([], st2)

/-! ### Concrete pages and worlds for the scenario theorems -/

/-- A page with no content at all. -/
def emptyPage : Page := { body := "", links := [], title := none }

/-- A 1000-character page body carrying no captcha, redirect or help-center
marker. -/
def plainBody : String := ⟨List.replicate 1000 'a'⟩

/-- A long marker-free page with no links. -/
def plainPage : Page := { body := plainBody, links := [], title := none }

/-- The standard ECS API directory URL. -/
def dirUrlEcs : String := "https://support.huaweicloud.com/api-ecs/ecs_02_0000.html"

theorem occursIn_replicate_head_ne (d : Char) (m : List Char) (c : Char)
    (hne : (d == c) = false) :
    ∀ k, occursIn (d :: m) (List.replicate k c) = false := by
  intro k
  induction k with
  | zero => simp [occursIn, List.isEmpty]
  | succ k ih =>
    rw [List.replicate_succ]
    simp [occursIn, List.isPrefixOf, hne, ih]

theorem strContains_plainBody_false (d : Char) (m : List Char) (hne : (d == 'a') = false) :
    strContains plainBody ⟨d :: m⟩ = false := by
  simp only [strContains, plainBody]
  exact occursIn_replicate_head_ne d m 'a' hne 1000

/-! ### Claim C3: the retry loop -/

/-- An attempt schedule that always answers with status 500. -/
def attemptsAll500 : Nat → FetchOutcome := fun _ => .ok 500 emptyPage

/-- C3 counterexample: three consecutive non-200 attempts are issued with no
sleep at all between them, contradicting the claimed fixed 1-second delay
between any two consecutive attempts, and the final failure yields no usable
response. -/
theorem c3_counterexample_no_delay_between_status_retries :
    (retryFetch attemptsAll500).calls = 3
    ∧ ¬((retryFetch attemptsAll500).sleeps = (retryFetch attemptsAll500).calls - 1)
    ∧ retrySucceeded (retryFetch attemptsAll500) = false := by
  refine ⟨rfl, by decide, rfl⟩

/-- C3 amended: at most 3 attempts; a retry follows both a non-200 response
and a transport failure; the 1-second delay is inserted exactly after each
non-final attempt that raised a transport exception (never after a status-only
failure); and when the loop fails overall, both subcategory fetch operations
report the empty list to their caller. -/
theorem c3_retry_bounds_delays_and_empty_result (a : Nat → FetchOutcome) :
    (retryFetch a).calls ≤ 3
    ∧ (retryFetch a).sleeps
        = ((List.range ((retryFetch a).calls - 1)).filter (fun i => isExn (a i))).length
    ∧ (∀ s p, a 0 = .ok s p → s ≠ 200 → 2 ≤ (retryFetch a).calls)
    ∧ (a 0 = .exn → 2 ≤ (retryFetch a).calls)
    ∧ (∀ w st url pc, retrySucceeded (retryFetch (fun _ => w.get url)) = false →
        (fetchSubcategoriesFromApiDir w st url pc).1 = []
        ∧ (fetchSubcategoriesFromOverview w st url pc).1 = []) := by
  refine ⟨?_, ?_, ?_, ?_, ?_⟩
  · cases h0 : a 0 with
    | exn =>
      cases h1 : a 1 with
      | exn => cases h2 : a 2 <;> simp [retryFetch, h0, h1, h2]
      | ok s1 p1 =>
        by_cases hs1 : s1 = 200
        · simp [retryFetch, h0, h1, hs1]
        · cases h2 : a 2 <;> simp [retryFetch, h0, h1, h2, hs1]
    | ok s0 p0 =>
      by_cases hs0 : s0 = 200
      · simp [retryFetch, h0, hs0]
      · cases h1 : a 1 with
        | exn => cases h2 : a 2 <;> simp [retryFetch, h0, h1, h2, hs0]
        | ok s1 p1 =>
          by_cases hs1 : s1 = 200
          · simp [retryFetch, h0, h1, hs0, hs1]
          · cases h2 : a 2 <;> simp [retryFetch, h0, h1, h2, hs0, hs1]
  · cases h0 : a 0 with
    | exn =>
      cases h1 : a 1 with
      | exn =>
        cases h2 : a 2 <;>
          simp [retryFetch, h0, h1, h2, isExn, List.range_succ]
      | ok s1 p1 =>
        by_cases hs1 : s1 = 200
        · simp [retryFetch, h0, h1, hs1, isExn, List.range_succ]
        · cases h2 : a 2 <;>
            simp [retryFetch, h0, h1, h2, hs1, isExn, List.range_succ]
    | ok s0 p0 =>
      by_cases hs0 : s0 = 200
      · simp [retryFetch, h0, hs0, isExn, List.range_succ]
      · cases h1 : a 1 with
        | exn =>
          cases h2 : a 2 <;>
            simp [retryFetch, h0, h1, h2, hs0, isExn, List.range_succ]
        | ok s1 p1 =>
          by_cases hs1 : s1 = 200
          · simp [retryFetch, h0, h1, hs0, hs1, isExn, List.range_succ]
          · cases h2 : a 2 <;>
              simp [retryFetch, h0, h1, h2, hs0, hs1, isExn, List.range_succ]
  · intro s p h0 hs
    cases h1 : a 1 with
    | exn => cases h2 : a 2 <;> simp [retryFetch, h0, h1, h2, hs]
    | ok s1 p1 =>
      by_cases hs1 : s1 = 200
      · simp [retryFetch, h0, h1, hs, hs1]
      · cases h2 : a 2 <;> simp [retryFetch, h0, h1, h2, hs, hs1]
  · intro h0
    cases h1 : a 1 with
    | exn => cases h2 : a 2 <;> simp [retryFetch, h0, h1, h2]
    | ok s1 p1 =>
      by_cases hs1 : s1 = 200
      · simp [retryFetch, h0, h1, hs1]
      · cases h2 : a 2 <;> simp [retryFetch, h0, h1, h2, hs1]
  · intro w st url pc hfail
    constructor
    · by_cases hv : memStr st.visited url
      · simp [fetchSubcategoriesFromApiDir, hv]
      · rcases hT : retryFetch (fun _ => w.get url) with ⟨calls, sleeps, resp, early⟩
        rw [hT] at hfail
        simp only [fetchSubcategoriesFromApiDir, hv, hT]
        cases early with
        | true => simp
        | false =>
          cases resp with
          | none => simp
          | some r =>
            rcases r with ⟨s, pg⟩
            have hs : ¬s = 200 := by
              simp [retrySucceeded] at hfail
              intro hc
              subst hc
              simp at hfail
            simp [hs]
    · by_cases hv : memStr st.visited url
      · simp [fetchSubcategoriesFromOverview, hv]
      · rcases hT : retryFetch (fun _ => w.get url) with ⟨calls, sleeps, resp, early⟩
        rw [hT] at hfail
        simp only [fetchSubcategoriesFromOverview, hv, hT]
        cases early with
        | true => simp
        | false =>
          cases resp with
          | none => simp
          | some r =>
            rcases r with ⟨s, pg⟩
            have hs : ¬s = 200 := by
              simp [retrySucceeded] at hfail
              intro hc
              subst hc
              simp at hfail
            simp [hs]

/-- Witness for the amended retry theorem: three all-500 attempts are a retry
(at least two calls), with the hypotheses discharged at that schedule. -/
theorem c3_retry_witness : attemptsAll500 0 = .ok 500 emptyPage ∧ (500 : Nat) ≠ 200
    ∧ 2 ≤ (retryFetch attemptsAll500).calls := by
  refine ⟨rfl, by decide, ?_⟩
  exact (c3_retry_bounds_delays_and_empty_result attemptsAll500).2.2.1 500 emptyPage rfl
    (by decide)

/-! ### Claim C2: the single-visit invariant -/

/-- A world in which only the ECS directory URL answers, with a long
marker-free page. -/
def wC2 : World :=
  { get := fun u => if u = dirUrlEcs then .ok 200 plainPage else .exn
    head := fun _ => .exn
    streamGet := fun _ => .exn }

/-- C2 counterexample: after `_fetch_subcategories_from_api_dir` has placed
the directory URL in the VisitedSet (and fetched it once), a later
`_verify_url` call on the same URL issues a second request for it — the
membership check does not precede every fetch of the engine. -/
theorem c2_counterexample_visited_url_fetched_twice :
    memStr (fetchSubcategoriesFromApiDir wC2 ⟨[], []⟩ dirUrlEcs "ecs").2.visited dirUrlEcs
      = true
    ∧ (verifyUrl wC2 (fetchSubcategoriesFromApiDir wC2 ⟨[], []⟩ dirUrlEcs "ecs").2
        dirUrlEcs).2.events = [dirUrlEcs, dirUrlEcs] := by
  constructor
  · set_option maxRecDepth 8000 in decide
  · set_option maxRecDepth 8000 in decide

/-- C2 amended: the membership check does guard the two subcategory fetch
operations — for a URL already in the VisitedSet they issue no request and
return the empty list with the state untouched; operations such as
`_verify_url` fetch without consulting the set. -/
theorem c2_visited_guard_in_subcategory_fetchers
    (w : World) (st : Eng) (url pc : String) (h : memStr st.visited url = true) :
    fetchSubcategoriesFromApiDir w st url pc = ([], st)
    ∧ fetchSubcategoriesFromOverview w st url pc = ([], st) := by
  constructor
  · simp [fetchSubcategoriesFromApiDir, h]
  · simp [fetchSubcategoriesFromOverview, h]

/-- Witness for the visited-guard theorem at a concrete visited state. -/
theorem c2_visited_guard_witness :
    memStr [dirUrlEcs] dirUrlEcs = true
    ∧ fetchSubcategoriesFromApiDir wC2 ⟨[dirUrlEcs], []⟩ dirUrlEcs "ecs"
        = ([], ⟨[dirUrlEcs], []⟩) := by
  have h : memStr [dirUrlEcs] dirUrlEcs = true := by decide
  exact ⟨h, (c2_visited_guard_in_subcategory_fetchers wC2 ⟨[dirUrlEcs], []⟩ dirUrlEcs "ecs"
    h).1⟩

/-! ### Claim C1: the blocked-page probing fallback -/

/-- A world where every candidate sibling URL answers 200 to the HEAD probe
(and GETs fail, which the probe never reaches after a successful HEAD). -/
def wC1 : World :=
  { get := fun _ => .exn
    head := fun _ => .ok 200 plainPage
    streamGet := fun _ => .exn }

/-- C1 (code bug, evaluated at the failing input): with every one of the 20
candidate sibling URLs answering success (200) to the HEAD probe,
`_try_build_subcategories_directly` returns no node at all — the append logic
is nested inside the `if not status_ok:` HEAD-failure branch, so a candidate
whose probe returns success is dropped, contrary to the accept-on-success
policy the surrounding comments document. -/
theorem c1_head_success_candidates_dropped :
    (tryBuildSubcategoriesDirectly wC1 ⟨[], []⟩ "ecs" dirUrlEcs).1.length = 0
    ∧ (tryBuildSubcategoriesDirectly wC1 ⟨[], []⟩ "ecs" dirUrlEcs).2.events.length = 20 := by
  constructor
  · set_option maxRecDepth 8000 in decide
  · set_option maxRecDepth 8000 in decide

/-! ### Further string facts used by the scenario proofs -/

theorem strContains_of_data (h n : String) (a b : List Char)
    (hd : h.data = a ++ (n.data ++ b)) : strContains h n = true := by
  simp only [strContains, hd]
  exact occursIn_append_mid a n.data b

theorem strStarts_of_data (s t : String) (b : List Char) (hd : s.data = t.data ++ b) :
    strStarts s t = true := by
  simp only [strStarts, hd]
  exact isPrefixOf_self_append t.data b

theorem strStarts_append (a b : String) : strStarts (a ++ b) a = true :=
  strStarts_of_data _ _ b.data (String.data_append a b)

theorem strEndsWith_false_of_rev (s t : String) (c d : Char)
    (hc : ∃ r, s.data.reverse = c :: r) (hd : ∃ q, t.data.reverse = d :: q)
    (hne : (d == c) = false) : strEndsWith s t = false := by
  obtain ⟨r, hr⟩ := hc
  obtain ⟨q, hq⟩ := hd
  simp [strEndsWith, hr, hq, List.isPrefixOf, hne]

theorem strAppend_assoc (a b c : String) : (a ++ b) ++ c = a ++ (b ++ c) := by
  apply String.ext
  simp [String.data_append]

set_option maxRecDepth 4000 in
theorem plainBody_lower_no_captcha : strContains (strLower plainBody) "captcha" = false := by
  decide

set_option maxRecDepth 4000 in
theorem plainBody_lower_no_tcaptcha : strContains (strLower plainBody) "tcaptcha" = false := by
  decide

set_option maxRecDepth 4000 in
theorem plainBody_take_no_winredir :
    strContains (strTake plainBody 1000) "window.location.href" = false := by
  decide

set_option maxRecDepth 4000 in
theorem plainBody_take_no_redir :
    strContains (strTake plainBody 1000) "location.href" = false := by
  decide

theorem plainBody_len : strLen plainBody = 1000 := by
  show (List.replicate 1000 'a').length = 1000
  exact List.length_replicate 1000 'a'

/-! ### Claim C4: a directory page with `_0001`, `_0002` and `_0000` links -/

/-- Hyperlink target `/api-{p}/{p}_02_{num}.html`. -/
def c4href (p num : String) : String := "/api-" ++ p ++ "/" ++ p ++ "_02_" ++ num ++ ".html"

/-- The standard directory URL `{BASE}/api-{p}/{p}_02_0000.html`. -/
def c4dirUrl (p : String) : String := BASE ++ "/api-" ++ p ++ "/" ++ p ++ "_02_0000" ++ ".html"

/-- The directory page of the C4 scenario: its qualifying links are exactly
the `_0001`, `_0002` and `_0000` targets, in this order. -/
def c4links (p : String) : List Link :=
  [⟨"Instance Management", c4href p "0001"⟩,
   ⟨"Image Management", c4href p "0002"⟩,
   ⟨"API", c4href p "0000"⟩]

/-- The directory page itself: long marker-free body with those three links. -/
def c4page (p : String) : Page := { body := plainBody, links := c4links p, title := none }

/-- The C4 network: only the directory URL answers. -/
def c4world (p : String) : World :=
  { get := fun u => if u = c4dirUrl p then .ok 200 (c4page p) else .exn
    head := fun _ => .exn
    streamGet := fun _ => .exn }

theorem rev_append_html (x : String) :
    (x ++ ".html").data.reverse = 'l' :: 'm' :: 't' :: 'h' :: '.' :: x.data.reverse := by
  simp only [String.data_append, List.reverse_append]
  rfl

theorem c4href_pdf_false (p num : String) :
    strEndsWith (BASE ++ c4href p num) ".pdf" = false := by
  have hx : BASE ++ c4href p num
      = (BASE ++ ("/api-" ++ p ++ "/" ++ p ++ "_02_" ++ num)) ++ ".html" := by
    apply String.ext
    simp [String.data_append, c4href]
  rw [hx]
  exact strEndsWith_false_of_rev _ _ 'l' 'f'
    ⟨_, rev_append_html (BASE ++ ("/api-" ++ p ++ "/" ++ p ++ "_02_" ++ num))⟩
    ⟨('d' :: 'p' :: '.' :: []), rfl⟩ rfl

theorem c4href_contains_pat (p num : String) :
    strContains (c4href p num) (p ++ "_02_") = true := by
  apply strContains_of_data _ _ ("/api-".data ++ (p.data ++ "/".data))
    (num.data ++ ".html".data)
  simp only [c4href, String.data_append, List.append_assoc]

theorem c4href_contains_base (p num : String) :
    strContains (c4href p num) ("/api-" ++ p ++ "/") = true := by
  apply strContains_of_data _ _ [] ((p ++ "_02_" ++ num ++ ".html").data)
  simp only [c4href, String.data_append, List.append_assoc, List.nil_append]

theorem c4href0000_contains_dirpat (p : String) :
    strContains (c4href p "0000") (p ++ "_02_0000") = true := by
  apply strContains_of_data _ _ ("/api-".data ++ (p.data ++ "/".data)) (".html".data)
  simp only [c4href, String.data_append, List.append_assoc]
  rfl

theorem c4dirUrl_contains_dirpat (p : String) :
    strContains (c4dirUrl p) (p ++ "_02_0000") = true := by
  apply strContains_of_data _ _ (BASE.data ++ ("/api-".data ++ (p.data ++ "/".data)))
    (".html".data)
  simp only [c4dirUrl, String.data_append, List.append_assoc]

theorem c4_urljoin (p num : String) (hScheme : strContains (c4href p num) "://" = false) :
    urljoin BASE (c4href p num) = BASE ++ c4href p num := by
  unfold urljoin
  rw [hScheme]
  have hSlash : strStarts (c4href p num) "/" = true := by
    apply strStarts_of_data _ _ ("api-" ++ p ++ "/" ++ p ++ "_02_" ++ num ++ ".html").data
    simp only [c4href, String.data_append, List.append_assoc]
    rfl
  rw [hSlash]
  simp

/-- Acceptance of a non-marker link by the pattern loop: the `{p}_02_` family
matches and the trailing ID is not the `_0000` marker. -/
theorem c4_scanPatterns_accepts (p num : String) (visited : List String) (text : String)
    (rest : List String)
    (hAny : (apiDirPatterns p).any (fun q => strContains (c4href p num) q) = false)
    (hScheme : strContains (c4href p num) "://" = false)
    (hVis : memStr visited (BASE ++ c4href p num) = false)
    (hParts : 2 ≤ (pathParts (BASE ++ c4href p num)).length)
    (hFile : filenameOf (BASE ++ c4href p num) = p ++ "_02_" ++ num)
    (hTopic : strEqb (p ++ "_02_") "topic_" = false)
    (hNum : strEndsWith (p ++ "_02_" ++ num) "_0000" = false) :
    scanPatterns visited p text (c4href p num) ((p ++ "_02_") :: rest)
      = some (mkLeaf text (BASE ++ c4href p num) (p ++ "_02_" ++ num)) := by
  have hStart : strStarts (p ++ "_02_" ++ num) (p ++ "_02_") = true := strStarts_append _ _
  simp only [scanPatterns, c4href_contains_pat, c4_urljoin p num hScheme, c4href_pdf_false,
    hAny, hVis, hParts, hFile, hTopic, hStart, hNum]
  simp

/-- Rejection of the `_0000` directory-marker link: the directory-marker
pattern occurs in its href, so the loop breaks without appending. -/
theorem c4_scanPatterns_rejects_marker (p : String) (visited : List String) (text : String)
    (rest : List String) :
    scanPatterns visited p text (c4href p "0000") ((p ++ "_02_") :: rest) = none := by
  have hAny : (apiDirPatterns p).any (fun q => strContains (c4href p "0000") q) = true := by
    simp [apiDirPatterns, c4href0000_contains_dirpat]
  simp only [scanPatterns, c4href_contains_pat, hAny]
  simp

theorem rev_append_cons (x y : String) (c : Char) (r : List Char)
    (h : y.data.reverse = c :: r) :
    (x ++ y).data.reverse = c :: (r ++ x.data.reverse) := by
  simp [String.data_append, List.reverse_append, h]

theorem c4_id_not_marker (p num : String) (c : Char) (r : List Char)
    (hrev : (num : String).data.reverse = c :: r) (hne : (('0' : Char) == c) = false) :
    strEndsWith (p ++ "_02_" ++ num) "_0000" = false :=
  strEndsWith_false_of_rev _ _ c '0' ⟨_, rev_append_cons (p ++ "_02_") num c r hrev⟩
    ⟨('0' :: '0' :: '0' :: '_' :: []), rfl⟩ hne

theorem c4href_ne_empty (p num : String) : ¬(c4href p num = "") := by
  intro h
  have hd := congrArg String.data h
  have hx : (c4href p num).data
      = '/' :: ("api-" ++ p ++ "/" ++ p ++ "_02_" ++ num ++ ".html").data := by
    simp only [c4href, String.data_append, List.append_assoc]
    rfl
  rw [hx, show ("" : String).data = [] from rfl] at hd
  exact List.cons_ne_nil _ _ hd

/-- C4: on a directory page whose qualifying links are exactly the `_0001`,
`_0002` and `_0000` targets of the `{p}_02_` family, subcategory discovery
returns exactly the `_0001` and `_0002` nodes, in document order, and
excludes the `_0000` directory marker.  The hypotheses are sanity conditions
on the product code (a reserved marker pattern, scheme separator or extra
path separator must not occur inside the code's own characters); all are
decidable and hold of real product codes, as the witness checks at `ecs`. -/
theorem c4_directory_page_excludes_marker_in_order (p : String)
    (hBase : strContains (c4dirUrl p) ("/api/" ++ p ++ "/") = false)
    (hTopic : strEqb (p ++ "_02_") "topic_" = false)
    (hAny1 : (apiDirPatterns p).any (fun q => strContains (c4href p "0001") q) = false)
    (hAny2 : (apiDirPatterns p).any (fun q => strContains (c4href p "0002") q) = false)
    (hScheme1 : strContains (c4href p "0001") "://" = false)
    (hScheme2 : strContains (c4href p "0002") "://" = false)
    (hParts1 : 2 ≤ (pathParts (BASE ++ c4href p "0001")).length)
    (hParts2 : 2 ≤ (pathParts (BASE ++ c4href p "0002")).length)
    (hFile1 : filenameOf (BASE ++ c4href p "0001") = p ++ "_02_" ++ "0001")
    (hFile2 : filenameOf (BASE ++ c4href p "0002") = p ++ "_02_" ++ "0002") :
    (fetchSubcategoriesFromApiDir (c4world p) ⟨[], []⟩ (c4dirUrl p) p).1
      = [mkLeaf "Instance Management" (BASE ++ c4href p "0001") (p ++ "_02_" ++ "0001"),
         mkLeaf "Image Management" (BASE ++ c4href p "0002") (p ++ "_02_" ++ "0002")] := by
  have hBP : getApiBasePath (c4dirUrl p) p = "/api-" ++ p ++ "/" := by
    unfold getApiBasePath
    rw [hBase]
    simp
  have hMem : memStr ([] : List String) (c4dirUrl p) = false := by simp [memStr]
  have hGet : (c4world p).get (c4dirUrl p) = .ok 200 (c4page p) := by simp [c4world]
  have hRT : retryFetch (fun _ => (c4world p).get (c4dirUrl p))
      = ⟨1, 0, some (200, c4page p), false⟩ := by
    simp [retryFetch, hGet]
  have hPats : subcategoryPatterns p (c4dirUrl p)
      = (p ++ "_02_") :: [p ++ "_api_", p ++ "_03_", "topic_"] := by
    have h2 : strEqb (p ++ "_api_") (p ++ "_02_") = false := by
      rw [strEqb_append_left]
      decide
    have h3 : strEqb (p ++ "_03_") (p ++ "_02_") = false := by
      rw [strEqb_append_left]
      decide
    have h4 : strEqb "topic_" (p ++ "_02_") = false := by
      rw [strEqb_comm]
      exact hTopic
    simp [subcategoryPatterns, c4dirUrl_contains_dirpat, List.filter, strEqb_self, h2, h3, h4]
  have hNe1 : strEqb (c4dirUrl p) (BASE ++ c4href p "0001") = false := by
    simp only [strEqb, c4dirUrl, c4href, String.data_append, List.append_assoc]
    rw [listBeq_append_left, listBeq_append_left, listBeq_append_left, listBeq_append_left,
      listBeq_append_left]
    decide
  have hNe2 : strEqb (c4dirUrl p) (BASE ++ c4href p "0002") = false := by
    simp only [strEqb, c4dirUrl, c4href, String.data_append, List.append_assoc]
    rw [listBeq_append_left, listBeq_append_left, listBeq_append_left, listBeq_append_left,
      listBeq_append_left]
    decide
  have hVis1 : memStr [c4dirUrl p] (BASE ++ c4href p "0001") = false := by
    simp [memStr, hNe1]
  have hVis2 : memStr [c4dirUrl p] (BASE ++ c4href p "0002") = false := by
    simp [memStr, hNe2]
  have hNum1 : strEndsWith (p ++ "_02_" ++ "0001") "_0000" = false :=
    c4_id_not_marker p "0001" '1' ('0' :: '0' :: '0' :: []) rfl rfl
  have hNum2 : strEndsWith (p ++ "_02_" ++ "0002") "_0000" = false :=
    c4_id_not_marker p "0002" '2' ('0' :: '0' :: '0' :: []) rfl rfl
  have hK1 : dirKeep [c4dirUrl p] p ((p ++ "_02_") :: [p ++ "_api_", p ++ "_03_", "topic_"])
      ("/api-" ++ p ++ "/") ⟨"Instance Management", c4href p "0001"⟩
      = some (mkLeaf "Instance Management" (BASE ++ c4href p "0001")
          (p ++ "_02_" ++ "0001")) := by
    have hx : dirExclude.any (fun k => strContains "Instance Management" k) = false := by
      decide
    have hno := c4href_ne_empty p "0001"
    simp only [dirKeep, hx, c4href_contains_base]
    rw [c4_scanPatterns_accepts p "0001" [c4dirUrl p] "Instance Management" _
      hAny1 hScheme1 hVis1 hParts1 hFile1 hTopic hNum1]
    simp [hno]
  have hK2 : dirKeep [c4dirUrl p] p ((p ++ "_02_") :: [p ++ "_api_", p ++ "_03_", "topic_"])
      ("/api-" ++ p ++ "/") ⟨"Image Management", c4href p "0002"⟩
      = some (mkLeaf "Image Management" (BASE ++ c4href p "0002")
          (p ++ "_02_" ++ "0002")) := by
    have hx : dirExclude.any (fun k => strContains "Image Management" k) = false := by
      decide
    have hno := c4href_ne_empty p "0002"
    simp only [dirKeep, hx, c4href_contains_base]
    rw [c4_scanPatterns_accepts p "0002" [c4dirUrl p] "Image Management" _
      hAny2 hScheme2 hVis2 hParts2 hFile2 hTopic hNum2]
    simp [hno]
  have hK3 : dirKeep [c4dirUrl p] p ((p ++ "_02_") :: [p ++ "_api_", p ++ "_03_", "topic_"])
      ("/api-" ++ p ++ "/") ⟨"API", c4href p "0000"⟩ = none := by
    have hx : dirExclude.any (fun k => strContains "API" k) = false := by decide
    have hno := c4href_ne_empty p "0000"
    simp only [dirKeep, hx, c4href_contains_base]
    rw [c4_scanPatterns_rejects_marker p [c4dirUrl p] "API" _]
    simp [hno]
  have hScan : dirScan [c4dirUrl p] p ((p ++ "_02_") :: [p ++ "_api_", p ++ "_03_", "topic_"])
      ("/api-" ++ p ++ "/") (c4links p)
      = [mkLeaf "Instance Management" (BASE ++ c4href p "0001") (p ++ "_02_" ++ "0001"),
         mkLeaf "Image Management" (BASE ++ c4href p "0002") (p ++ "_02_" ++ "0002")] := by
    simp [dirScan, c4links, hK1, hK2, hK3]
  have hOv : findOverviewLink ("/api-" ++ p ++ "/") (c4links p) = none := by
    have t1 : strContains "Instance Management" "API概览" = false := by decide
    have t2 : strContains "Instance Management" "概览" = false := by decide
    have t3 : strContains "Image Management" "API概览" = false := by decide
    have t4 : strContains "Image Management" "概览" = false := by decide
    have t5 : strContains "API" "API概览" = false := by decide
    have t6 : strContains "API" "概览" = false := by decide
    simp [findOverviewLink, c4links, t1, t2, t3, t4, t5, t6]
  have hNeUrls : strEqb (BASE ++ c4href p "0001") (BASE ++ c4href p "0002") = false := by
    simp only [strEqb, c4href, String.data_append, List.append_assoc]
    rw [listBeq_append_left, listBeq_append_left, listBeq_append_left, listBeq_append_left,
      listBeq_append_left]
    decide
  have hsmall : decide (strLen plainBody < 1000) = false := by
    rw [plainBody_len]
    decide
  simp only [fetchSubcategoriesFromApiDir, hBP, hMem, hRT, c4page, hPats,
    plainBody_lower_no_captcha, plainBody_lower_no_tcaptcha, plainBody_take_no_winredir,
    plainBody_take_no_redir, hsmall, addVisited, List.nil_append]
  simp only [Bool.or_self, Bool.or_false, Bool.false_or, Bool.false_eq_true, if_false]
  simp [hOv, hScan, dedupByUrl, dedupGo, memStr, mkLeaf, Subcat.url, hNeUrls]

/-- Witness for the C4 theorem: all sanity hypotheses hold at `p = "ecs"`. -/
theorem c4_directory_page_witness :
    (fetchSubcategoriesFromApiDir (c4world "ecs") ⟨[], []⟩ (c4dirUrl "ecs") "ecs").1
      = [mkLeaf "Instance Management" (BASE ++ c4href "ecs" "0001") ("ecs" ++ "_02_" ++ "0001"),
         mkLeaf "Image Management" (BASE ++ c4href "ecs" "0002")
           ("ecs" ++ "_02_" ++ "0002")] :=
  c4_directory_page_excludes_marker_in_order "ecs" (by decide) (by decide) (by decide)
    (by decide) (by decide) (by decide) (by decide) (by decide) (by decide) (by decide)

/-! ### `_find_api_directory_url` and `_build_api_directory_url` (claim C9) -/

/-- Text keywords excluded from directory candidates (`exclude_keywords` of
`_find_api_directory_url`). -/
def refExclude : List String :=
  ["如何调用", "概览", "概述", "介绍", "说明", "指南", "guide", "overview", "introduction"]

/-- `_build_api_directory_url`: verify the three constructed candidate URLs
in order. -/
def buildApiDirectoryUrl (w : World) (st : Eng) (productCode : String)
    (apiBasePathOpt : Option String) : Option String × Eng :=
  let bp := apiBasePathOpt.getD ("/api-" ++ productCode ++ "/")
  let u1 := BASE ++ bp ++ productCode ++ "_02_0000" ++ ".html"
  let u2 := BASE ++ bp ++ "api.html"
  let u3 := BASE ++ bp ++ "index.html"
  match verifyUrl w st u1 with
  | (true, st1) => (some u1, st1)
  | (false, st1) =>
    match verifyUrl w st1 u2 with
    | (true, st2) => (some u2, st2)
    | (false, st2) =>
      match verifyUrl w st2 u3 with
      | (true, st3) => (some u3, st3)
      | (false, st3) => (none, st3)

/-- Priority 1 of `_find_api_directory_url`: links whose href carries both the
API base path and the `{p}_02_0000` directory pattern, each verified in turn. -/
def prio1Scan (w : World) (st : Eng) (basePath dirPat : String) :
    List Link → Option String × Eng
  | [] => (none, st)
  | lk :: rest =>
    if strContains lk.href basePath && strContains lk.href dirPat then
      let fullUrl := urljoin BASE lk.href
      match verifyUrl w st fullUrl with
      | (true, st1) => (some fullUrl, st1)
      | (false, st1) => prio1Scan w st1 basePath dirPat rest
    else prio1Scan w st basePath dirPat rest

/-- A priority-2 candidate (`api_candidates` entries). -/
structure DirCandidate where
  text : String
  url : String
  href : String
  priority : Nat
deriving Repr, DecidableEq

/-- Priority 2 collection: API-labelled links of the `_02_`/`_api_` families.
The inner `for url_pattern in url_patterns` loop breaks on the first matching
pattern and its body does not use the pattern, so it amounts to the
disjunction of the two membership tests. -/
def prio2Collect (p basePath : String) : List Link → List DirCandidate
  | [] => []
  | lk :: rest =>
    let keep :=
      if lk.text = "" || lk.href = "" then none
      else if refExclude.any (fun k => strContains lk.text k) then none
      else if strContains lk.href basePath
          && (strContains lk.text "API" || strContains (strLower lk.text) "api") then
        if strContains lk.href (p ++ "_02_") || strContains lk.href (p ++ "_api_") then
          if strContains lk.href (p ++ "_02_00") || strContains lk.href (p ++ "_api_00") then
            some { text := lk.text, url := urljoin BASE lk.href, href := lk.href,
                   priority :=
                     if strContains lk.href (p ++ "_02_0000")
                         || strContains lk.href (p ++ "_api_0000") then 1 else 2 }
          else none
        else none
      else none
    match keep with
    | some c => c :: prio2Collect p basePath rest
    | none => prio2Collect p basePath rest

/-- Stable sort by priority.  The collected priorities are only 1 or 2, for
which Python's stable `sort` is exactly "the priority-1 entries in order,
then the rest in order". -/
def sortCandidates (l : List DirCandidate) : List DirCandidate :=
  l.filter (fun c => c.priority == 1) ++ l.filter (fun c => !(c.priority == 1))

/-- The priority-2 verification loop: return the first candidate whose URL
verifies. -/
def verifyCandidates (w : World) (st : Eng) : List DirCandidate → Option String × Eng
  | [] => (none, st)
  | c :: rest =>
    match verifyUrl w st c.url with
    | (true, st1) => (some c.url, st1)
    | (false, st1) => verifyCandidates w st1 rest

/-- `_find_api_directory_url`: fetch the reference page once, then priority 1
(directory-pattern links), priority 2 (API-labelled candidates sorted by
priority, each verified), priority 3 (constructed URLs).  A transport
exception falls back to URL construction without the base path, a non-200
response to construction with it. -/
def findApiDirectoryUrl (w : World) (st : Eng) (apiRefUrl productCode : String) :
    Option String × Eng :=
  let basePath := getApiBasePath apiRefUrl productCode
  let st1 := logEvent st apiRefUrl
  match w.get apiRefUrl with
  | .exn => buildApiDirectoryUrl w st1 productCode none
  | .ok s pg =>
    if s = 200 then
      match prio1Scan w st1 basePath (productCode ++ "_02_0000") pg.links with
      | (some u, st2) => (some u, st2)
      | (none, st2) =>
        match verifyCandidates w st2
            (sortCandidates (prio2Collect productCode basePath pg.links)) with
        | (some u, st3) => (some u, st3)
        | (none, st3) => buildApiDirectoryUrl w st3 productCode (some basePath)
    else buildApiDirectoryUrl w st1 productCode (some basePath)

/-! ### Claim C9 theorems -/

theorem verifyUrl_visited (w : World) (st : Eng) (u : String) :
    (verifyUrl w st u).2.visited = st.visited := by
  simp only [verifyUrl, logEvent]
  cases w.get u with
  | exn => rfl
  | ok s pg =>
    by_cases h : s = 200
    · simp [h]
    · simp [h]

theorem buildApiDirectoryUrl_visited (w : World) (st : Eng) (p : String)
    (bp : Option String) : (buildApiDirectoryUrl w st p bp).2.visited = st.visited := by
  simp only [buildApiDirectoryUrl]
  rcases h1 : verifyUrl w st (BASE ++ bp.getD ("/api-" ++ p ++ "/") ++ p ++ "_02_0000"
      ++ ".html") with ⟨b1, st1⟩
  have e1 : st1.visited = st.visited := by
    have := verifyUrl_visited w st (BASE ++ bp.getD ("/api-" ++ p ++ "/") ++ p ++ "_02_0000"
      ++ ".html")
    rw [h1] at this
    exact this
  cases b1
  · rcases h2 : verifyUrl w st1 (BASE ++ bp.getD ("/api-" ++ p ++ "/") ++ "api.html")
      with ⟨b2, st2⟩
    have e2 : st2.visited = st1.visited := by
      have := verifyUrl_visited w st1 (BASE ++ bp.getD ("/api-" ++ p ++ "/") ++ "api.html")
      rw [h2] at this
      exact this
    cases b2
    · rcases h3 : verifyUrl w st2 (BASE ++ bp.getD ("/api-" ++ p ++ "/") ++ "index.html")
        with ⟨b3, st3⟩
      have e3 : st3.visited = st2.visited := by
        have := verifyUrl_visited w st2 (BASE ++ bp.getD ("/api-" ++ p ++ "/") ++ "index.html")
        rw [h3] at this
        exact this
      cases b3 <;> simp [h2, h3, e1, e2, e3]
    · simp [h2, e1, e2]
  · simp [e1]

theorem prio1Scan_visited (w : World) (basePath dirPat : String) :
    ∀ (links : List Link) (st : Eng),
      (prio1Scan w st basePath dirPat links).2.visited = st.visited := by
  intro links
  induction links with
  | nil => intro st; rfl
  | cons lk rest ih =>
    intro st
    simp only [prio1Scan]
    by_cases h : (strContains lk.href basePath && strContains lk.href dirPat) = true
    · rw [if_pos h]
      rcases hv : verifyUrl w st (urljoin BASE lk.href) with ⟨b, st1⟩
      have hpres : st1.visited = st.visited := by
        have := verifyUrl_visited w st (urljoin BASE lk.href)
        rw [hv] at this
        exact this
      cases b
      · simp only []
        rw [show (prio1Scan w st1 basePath dirPat rest).2.visited = st1.visited from ih st1]
          at *
        simpa [hv] using hpres
      · simp [hv, hpres]
    · rw [if_neg h]
      exact ih st

theorem verifyCandidates_visited (w : World) :
    ∀ (l : List DirCandidate) (st : Eng),
      (verifyCandidates w st l).2.visited = st.visited := by
  intro l
  induction l with
  | nil => intro st; rfl
  | cons c rest ih =>
    intro st
    simp only [verifyCandidates]
    rcases hv : verifyUrl w st c.url with ⟨b, st1⟩
    have hpres : st1.visited = st.visited := by
      have := verifyUrl_visited w st c.url
      rw [hv] at this
      exact this
    cases b
    · rw [show (verifyCandidates w st1 rest).2.visited = st1.visited from ih st1] at *
      simpa using hpres
    · simpa using hpres

/-- C9 amended, positive part: the directory-lookup and verification
operations never mutate the VisitedSet (they only fetch and log). -/
theorem c9_lookup_does_not_touch_visited (w : World) (st : Eng) (u p : String) :
    (findApiDirectoryUrl w st u p).2.visited = st.visited
    ∧ (verifyUrl w st u).2.visited = st.visited := by
  constructor
  · simp only [findApiDirectoryUrl]
    split
    · rw [buildApiDirectoryUrl_visited]
      rfl
    · rename_i s pg hget
      split
      · split
        · rename_i uu st2 h1
          have h := prio1Scan_visited w (getApiBasePath u p) (p ++ "_02_0000") pg.links
            (logEvent st u)
          rw [h1] at h
          simpa [logEvent] using h
        · rename_i st2 h1
          have hA : st2.visited = st.visited := by
            have h := prio1Scan_visited w (getApiBasePath u p) (p ++ "_02_0000") pg.links
              (logEvent st u)
            rw [h1] at h
            simpa [logEvent] using h
          split
          · rename_i uu st3 h2
            have h := verifyCandidates_visited w
              (sortCandidates (prio2Collect p (getApiBasePath u p) pg.links)) st2
            rw [h2] at h
            simpa using h.trans hA
          · rename_i st3 h2
            have h := verifyCandidates_visited w
              (sortCandidates (prio2Collect p (getApiBasePath u p) pg.links)) st2
            rw [h2] at h
            rw [buildApiDirectoryUrl_visited]
            simpa using h.trans hA
      · rw [buildApiDirectoryUrl_visited]
        rfl
  · exact verifyUrl_visited w st u

/-- A 1001-character marker-free body (long enough for `_verify_url`). -/
def hugeBody : String := ⟨List.replicate 1001 'a'⟩

/-- A page that `_verify_url` accepts. -/
def hugePage : Page := { body := hugeBody, links := [], title := none }

/-- A reference-page URL for the C9 scenario. -/
def c9refUrl : String := "https://support.huaweicloud.com/api-ecs/ref.html"

/-- The reference page: one link carrying the directory pattern. -/
def c9page : Page :=
  { body := plainBody, links := [⟨"A", "/api-ecs/ecs_02_0000.html"⟩], title := none }

/-- A world where candidate verification succeeds. -/
def c9w1 : World :=
  { get := fun u => if u = c9refUrl then .ok 200 c9page else .ok 200 hugePage
    head := fun _ => .exn
    streamGet := fun _ => .exn }

/-- A world serving the same reference page but failing every verification. -/
def c9w2 : World :=
  { get := fun u => if u = c9refUrl then .ok 200 c9page else .exn
    head := fun _ => .exn
    streamGet := fun _ => .exn }

/-- C9 counterexample: two worlds serve the identical page for the same
product code, yet the link classification of `_find_api_directory_url`
returns different results (its verification requests answer differently) and
issues HTTP requests along the way — classification is not a pure function of
(pageBody, productCode, role) and does perform network I/O. -/
theorem c9_counterexample_not_pure_function :
    c9w1.get c9refUrl = c9w2.get c9refUrl
    ∧ (findApiDirectoryUrl c9w1 ⟨[], []⟩ c9refUrl "ecs").1
        ≠ (findApiDirectoryUrl c9w2 ⟨[], []⟩ c9refUrl "ecs").1
    ∧ (findApiDirectoryUrl c9w2 ⟨[], []⟩ c9refUrl "ecs").2.events ≠ [] := by
  refine ⟨?_, ?_, ?_⟩
  · set_option maxRecDepth 100000 in decide
  · set_option maxRecDepth 100000 in decide
  · set_option maxRecDepth 100000 in decide

/-! ### The strategy cascade of `fetch_api_categories` and
`_parse_api_categories` (claims C5, C6)

The orchestration layer is translated here over its sub-procedures, the
fields of `StratOps` (each a fetching operation of its own — the central ones
are embedded individually above).  `progressive`, `menu`, `findApiDocUrl` and
`buildApiDocUrl` catch internally in the source and are total; the three
lookups called inside `_parse_api_categories` are `Except`-valued because the
single `try/except` wrapping its body is the handler that downgrades any
exception raised there to an empty list. -/

/-- A discovery strategy, named after the source's lookups. -/
inductive Strategy where
  | progressiveKnowledge
  | standardURL
  | referenceLookup
  | directLookup
  | sideMenu
deriving Repr, DecidableEq

/-- A found "API参考" category (result of `_find_api_reference_category`). -/
structure RefCat where
  name : String
  url : String
  categoryId : String
deriving Repr, DecidableEq

/-- The sub-procedures the orchestration calls. -/
structure StratOps where
  findApiDocUrl : String → String → Option String
  buildApiDocUrl : String → String
  progressive : String → String → List Subcat
  fetchSubcatsDir : String → String → Except String (List Subcat)
  findApiRefCategory : String → String → Except String (Option RefCat)
  findApiDirUrl : String → String → Except String (Option String)
  menu : String → String → List Subcat

/-- The result dict of `fetch_api_categories`. -/
structure ApiCatResult where
  product_code : String
  api_doc_url : String
  categories : List Subcat
deriving Repr

/-- The directory fallback ending `_parse_api_categories` (lines 321-338):
find the directory from the given URL and fetch its subcategories; empty and
non-empty results alike end the parse. -/
def parseDirect (ops : StratOps) (apiDocUrl product : String) (tr : List Strategy) :
    List Subcat × List Strategy :=
  match ops.findApiDirUrl apiDocUrl product with
  | .error _ => ([], tr ++ [.directLookup])
  | .ok none => ([], tr ++ [.directLookup])
  | .ok (some dir) =>
    match ops.fetchSubcatsDir dir product with
    | .error _ => ([], tr ++ [.directLookup])
    | .ok s => (s, tr ++ [.directLookup])

/-- `_parse_api_categories`: the standard-URL attempt first, then the
reference lookup, then the direct directory fallback; the `try/except`
wrapping the body returns the empty list when a lookup raises.  The second
component records the strategies attempted, in order. -/
def parseApiCategories (ops : StratOps) (apiDocUrl product : String) :
    List Subcat × List Strategy :=
  let basePath := getApiBasePath apiDocUrl product
  let stdUrl := BASE ++ basePath ++ product ++ "_02_0000.html"
  match ops.fetchSubcatsDir stdUrl product with
  | .error _ => ([], [.standardURL])
  | .ok s1 =>
    if !s1.isEmpty then (s1, [.standardURL])
    else
      match ops.findApiRefCategory apiDocUrl product with
      | .error _ => ([], [.standardURL, .referenceLookup])
      | .ok none => parseDirect ops apiDocUrl product [.standardURL, .referenceLookup]
      | .ok (some ref) =>
        match ops.findApiDirUrl ref.url product with
        | .error _ => ([], [.standardURL, .referenceLookup])
        | .ok none => parseDirect ops apiDocUrl product [.standardURL, .referenceLookup]
        | .ok (some dir) =>
          match ops.fetchSubcatsDir dir product with
          | .error _ => ([], [.standardURL, .referenceLookup])
          | .ok s2 =>
            if !s2.isEmpty then (s2, [.standardURL, .referenceLookup])
            else parseDirect ops apiDocUrl product [.standardURL, .referenceLookup]

/-- The API-doc URL resolution at the top of `fetch_api_categories`
(falsy results of `_find_api_doc_url` fall back to `_build_api_doc_url`). -/
def resolvedApiDocUrl (ops : StratOps) (product docUrl : String) : String :=
  match ops.findApiDocUrl product docUrl with
  | some s => if s = "" then ops.buildApiDocUrl product else s
  | none => ops.buildApiDocUrl product

/-- `fetch_api_categories`: resolve the API-doc URL, then try the
progressive-knowledge lookup, page parsing on the API-doc URL, page parsing
on the product-doc URL, and the side-menu fallback, stopping at the first
non-empty category list; the result dict is returned even when everything
produced nothing. -/
def fetchApiCategories (ops : StratOps) (product docUrl : String) :
    Option ApiCatResult × List Strategy :=
  let u0 := resolvedApiDocUrl ops product docUrl
  if u0 = "" then (none, [])
  else
    let c1 := ops.progressive product docUrl
    if !c1.isEmpty then (some ⟨product, u0, c1⟩, [.progressiveKnowledge])
    else
      let r2 := parseApiCategories ops u0 product
      if !r2.1.isEmpty then (some ⟨product, u0, r2.1⟩, .progressiveKnowledge :: r2.2)
      else
        let r3 := parseApiCategories ops docUrl product
        if !r3.1.isEmpty then
          (some ⟨product, u0, r3.1⟩, .progressiveKnowledge :: (r2.2 ++ r3.2))
        else
          let c4 := ops.menu docUrl product
          (some ⟨product, u0, c4⟩,
            .progressiveKnowledge :: (r2.2 ++ (r3.2 ++ [.sideMenu])))

/-- A data-driven cascade: walk the (strategy, outcome) list and stop at the
first non-empty outcome; the trace lists every strategy attempted. -/
def runCascade : List (Strategy × List Subcat) → List Subcat × List Strategy
  | [] => ([], [])
  | (s, r) :: rest =>
    if !r.isEmpty then (r, [s])
    else ((runCascade rest).1, s :: (runCascade rest).2)

/-- Value of an `Except` under a default for the error case. -/
def okD {α : Type} (e : Except String α) (d : α) : α :=
  match e with
  | .ok a => a
  | .error _ => d

/-- Outcome of the standard-URL attempt of `_parse_api_categories` on `u`. -/
def stdOutcome (ops : StratOps) (u product : String) : List Subcat :=
  okD (ops.fetchSubcatsDir (BASE ++ getApiBasePath u product ++ product ++ "_02_0000.html")
    product) []

/-- Outcome of the reference-lookup attempt on `u`. -/
def refOutcome (ops : StratOps) (u product : String) : List Subcat :=
  match okD (ops.findApiRefCategory u product) none with
  | none => []
  | some ref =>
    match okD (ops.findApiDirUrl ref.url product) none with
    | none => []
    | some dir => okD (ops.fetchSubcatsDir dir product) []

/-- Outcome of the direct directory fallback on `u`. -/
def directOutcome (ops : StratOps) (u product : String) : List Subcat :=
  match okD (ops.findApiDirUrl u product) none with
  | none => []
  | some dir => okD (ops.fetchSubcatsDir dir product) []

/-- The strategies in the order the code attempts them. -/
def cascadeOutcomes (ops : StratOps) (product docUrl apiDocUrl : String) :
    List (Strategy × List Subcat) :=
  [(.progressiveKnowledge, ops.progressive product docUrl),
   (.standardURL, stdOutcome ops apiDocUrl product),
   (.referenceLookup, refOutcome ops apiDocUrl product),
   (.directLookup, directOutcome ops apiDocUrl product),
   (.standardURL, stdOutcome ops docUrl product),
   (.referenceLookup, refOutcome ops docUrl product),
   (.directLookup, directOutcome ops docUrl product),
   (.sideMenu, ops.menu docUrl product)]

/-- No inner lookup raises. -/
def NoThrow (ops : StratOps) : Prop :=
  (∀ u q, ∃ r, ops.fetchSubcatsDir u q = .ok r)
  ∧ (∀ u q, ∃ r, ops.findApiRefCategory u q = .ok r)
  ∧ (∀ u q, ∃ r, ops.findApiDirUrl u q = .ok r)

theorem parseDirect_eq_outcome (ops : StratOps) (u product : String) (tr : List Strategy)
    (hNT : NoThrow ops) :
    parseDirect ops u product tr = (directOutcome ops u product, tr ++ [.directLookup]) := by
  obtain ⟨hF, _, hD⟩ := hNT
  obtain ⟨doo, hdoo⟩ := hD u product
  cases doo with
  | none => simp [parseDirect, directOutcome, okD, hdoo]
  | some dir =>
    obtain ⟨s, hs⟩ := hF dir product
    simp [parseDirect, directOutcome, okD, hdoo, hs]

theorem parse_eq_cascade (ops : StratOps) (u product : String) (hNT : NoThrow ops) :
    parseApiCategories ops u product
      = runCascade [(.standardURL, stdOutcome ops u product),
                    (.referenceLookup, refOutcome ops u product),
                    (.directLookup, directOutcome ops u product)] := by
  obtain ⟨hF, hR, hD⟩ := hNT
  obtain ⟨s1, hs1⟩ :=
    hF (BASE ++ getApiBasePath u product ++ product ++ "_02_0000.html") product
  by_cases h1 : s1.isEmpty
  case neg =>
    simp [parseApiCategories, runCascade, stdOutcome, okD, hs1, h1]
  case pos =>
    obtain ⟨ro, hro⟩ := hR u product
    have hPD := parseDirect_eq_outcome ops u product
      [Strategy.standardURL, Strategy.referenceLookup] ⟨hF, hR, hD⟩
    cases ro with
    | none =>
      simp [parseApiCategories, runCascade, stdOutcome, refOutcome, okD, hs1, hro, h1, hPD]
      cases hdo : directOutcome ops u product <;> simp
    | some ref =>
      obtain ⟨do1, hdo1⟩ := hD ref.url product
      cases do1 with
      | none =>
        simp [parseApiCategories, runCascade, stdOutcome, refOutcome, okD, hs1, hro, hdo1,
          h1, hPD]
        cases hdo : directOutcome ops u product <;> simp
      | some dir1 =>
        obtain ⟨s2, hs2⟩ := hF dir1 product
        by_cases h2 : s2.isEmpty
        · simp [parseApiCategories, runCascade, stdOutcome, refOutcome, okD, hs1, hro, hdo1,
            hs2, h1, h2, hPD]
          cases hdo : directOutcome ops u product <;> simp
        · simp [parseApiCategories, runCascade, stdOutcome, refOutcome, okD, hs1, hro, hdo1,
            hs2, h1, h2]

/-- C5 amended: the engine is exactly the first-non-empty cascade over the
strategies in the order ProgressiveKnowledge, StandardURL, ReferenceLookup,
DirectLookup (on the API-doc URL), then the same three on the product-doc
URL, then SideMenu — with short-circuiting at the first non-empty result. -/
theorem c5_cascade_order_and_short_circuit (ops : StratOps) (product docUrl : String)
    (hNT : NoThrow ops) (hU : resolvedApiDocUrl ops product docUrl ≠ "") :
    fetchApiCategories ops product docUrl
      = (some ⟨product, resolvedApiDocUrl ops product docUrl,
          (runCascade (cascadeOutcomes ops product docUrl
            (resolvedApiDocUrl ops product docUrl))).1⟩,
         (runCascade (cascadeOutcomes ops product docUrl
            (resolvedApiDocUrl ops product docUrl))).2) := by
  have hP1 := parse_eq_cascade ops (resolvedApiDocUrl ops product docUrl) product hNT
  have hP2 := parse_eq_cascade ops docUrl product hNT
  by_cases h1 : (ops.progressive product docUrl).isEmpty
  case neg =>
    simp [fetchApiCategories, cascadeOutcomes, runCascade, hU, h1]
  case pos =>
    by_cases h2 : (stdOutcome ops (resolvedApiDocUrl ops product docUrl) product).isEmpty
    case neg =>
      simp [fetchApiCategories, cascadeOutcomes, runCascade, hU, h1, h2, hP1]
    case pos =>
      by_cases h3 : (refOutcome ops (resolvedApiDocUrl ops product docUrl) product).isEmpty
      case neg =>
        simp [fetchApiCategories, cascadeOutcomes, runCascade, hU, h1, h2, h3, hP1]
      case pos =>
        by_cases h4 :
            (directOutcome ops (resolvedApiDocUrl ops product docUrl) product).isEmpty
        case neg =>
          simp [fetchApiCategories, cascadeOutcomes, runCascade, hU, h1, h2, h3, h4, hP1]
        case pos =>
          by_cases h5 : (stdOutcome ops docUrl product).isEmpty
          case neg =>
            simp [fetchApiCategories, cascadeOutcomes, runCascade, hU, h1, h2, h3, h4, h5,
              hP1, hP2]
          case pos =>
            by_cases h6 : (refOutcome ops docUrl product).isEmpty
            case neg =>
              simp [fetchApiCategories, cascadeOutcomes, runCascade, hU, h1, h2, h3, h4, h5,
                h6, hP1, hP2]
            case pos =>
              by_cases h7 : (directOutcome ops docUrl product).isEmpty
              case neg =>
                simp [fetchApiCategories, cascadeOutcomes, runCascade, hU, h1, h2, h3, h4,
                  h5, h6, h7, hP1, hP2]
              case pos =>
                by_cases h8 : (ops.menu docUrl product).isEmpty
                · simp [fetchApiCategories, cascadeOutcomes, runCascade, hU, h1, h2, h3, h4,
                    h5, h6, h7, h8, hP1, hP2]
                  cases hm : ops.menu docUrl product with
                  | nil => rfl
                  | cons a t =>
                    rw [hm] at h8
                    simp at h8
                · simp [fetchApiCategories, cascadeOutcomes, runCascade, hU, h1, h2, h3, h4,
                    h5, h6, h7, h8, hP1, hP2]

/-- Concrete sub-procedures for the C5 scenario: the standard-URL fetch and
the reference lookup would both produce a non-empty (and different) result. -/
def c5ops : StratOps :=
  { findApiDocUrl := fun _ _ => some "https://support.huaweicloud.com/api-ecs/"
    buildApiDocUrl := fun p => BASE ++ "/api-" ++ p ++ "/"
    progressive := fun _ _ => []
    fetchSubcatsDir := fun u _ =>
      if u = "uDir" then .ok [mkLeaf "R" "uR" ""] else .ok [mkLeaf "S" "uS" ""]
    findApiRefCategory := fun _ _ => .ok (some ⟨"API参考", "uRef", "r"⟩)
    findApiDirUrl := fun _ _ => .ok (some "uDir")
    menu := fun _ _ => [] }

/-- C5 counterexample: although the reference lookup would return the
non-empty list `[uR]`, the engine returns the standard-URL result `[uS]` and
never attempts the reference lookup — the standard-URL strategy is tried
before ReferenceLookup, refuting the claimed order (which also omits the
progressive-knowledge lookup attempted first of all). -/
theorem c5_counterexample_standard_before_reference :
    ((fetchApiCategories c5ops "ecs" "docurl").1.map
        (fun r => r.categories.map Subcat.url)) = some ["uS"]
    ∧ (fetchApiCategories c5ops "ecs" "docurl").2
        = [.progressiveKnowledge, .standardURL]
    ∧ (refOutcome c5ops (resolvedApiDocUrl c5ops "ecs" "docurl") "ecs").isEmpty = false
    ∧ Strategy.referenceLookup ∉ (fetchApiCategories c5ops "ecs" "docurl").2 := by
  refine ⟨?_, ?_, ?_, ?_⟩ <;> set_option maxRecDepth 4000 in decide

/-- Witness for the cascade-order theorem at the C5 scenario procedures. -/
theorem c5_cascade_witness :
    fetchApiCategories c5ops "ecs" "docurl"
      = (some ⟨"ecs", resolvedApiDocUrl c5ops "ecs" "docurl",
          (runCascade (cascadeOutcomes c5ops "ecs" "docurl"
            (resolvedApiDocUrl c5ops "ecs" "docurl"))).1⟩,
         (runCascade (cascadeOutcomes c5ops "ecs" "docurl"
            (resolvedApiDocUrl c5ops "ecs" "docurl"))).2) := by
  apply c5_cascade_order_and_short_circuit c5ops "ecs" "docurl"
  · refine ⟨?_, ?_, ?_⟩
    · intro u q
      by_cases h : u = "uDir"
      · exact ⟨[mkLeaf "R" "uR" ""], by simp [c5ops, h]⟩
      · exact ⟨[mkLeaf "S" "uS" ""], by simp [c5ops, h]⟩
    · intro u q
      exact ⟨some ⟨"API参考", "uRef", "r"⟩, rfl⟩
    · intro u q
      exact ⟨some "uDir", rfl⟩
  · decide

theorem resolvedApiDocUrl_ne (ops : StratOps) (product docUrl : String)
    (hBuild : ops.buildApiDocUrl product ≠ "") :
    resolvedApiDocUrl ops product docUrl ≠ "" := by
  unfold resolvedApiDocUrl
  cases ops.findApiDocUrl product docUrl with
  | none => exact hBuild
  | some s =>
    by_cases h : s = ""
    · simpa [h] using hBuild
    · simpa [h] using h

theorem parseDirect_empty_of_fetch_empty (ops : StratOps) (u product : String)
    (tr : List Strategy)
    (hFE : ∀ a b r, ops.fetchSubcatsDir a b = .ok r → r = []) :
    (parseDirect ops u product tr).1 = [] := by
  simp only [parseDirect]
  split
  · rfl
  · rfl
  · rename_i dir heq
    split
    · rfl
    · rename_i s hs
      simp [hFE _ _ _ hs]

theorem parse_empty_of_fetch_empty (ops : StratOps) (u product : String)
    (hFE : ∀ a b r, ops.fetchSubcatsDir a b = .ok r → r = []) :
    (parseApiCategories ops u product).1 = [] := by
  simp only [parseApiCategories]
  split
  · rfl
  · rename_i s1 hs1
    have h1 : s1 = [] := hFE _ _ _ hs1
    subst h1
    rw [if_neg (by simp)]
    split
    · rfl
    · exact parseDirect_empty_of_fetch_empty ops u product _ hFE
    · rename_i ref
      split
      · rfl
      · exact parseDirect_empty_of_fetch_empty ops u product _ hFE
      · rename_i dir heq
        split
        · rfl
        · rename_i s2 hs2
          have h2 : s2 = [] := hFE _ _ _ hs2
          subst h2
          rw [if_neg (by simp)]
          exact parseDirect_empty_of_fetch_empty ops u product _ hFE

/-- C6: the resolution entry point returns a result value for every behavior
of its sub-procedures — including procedures that raise on every call, which
the `try/except` of `_parse_api_categories` downgrades — and when every
discovery strategy yields nothing, the result carries the empty category
list rather than an error value. -/
theorem c6_returns_normally_and_empty_on_exhaustion (ops : StratOps)
    (product docUrl : String) (hBuild : ops.buildApiDocUrl product ≠ "") :
    (∃ r, (fetchApiCategories ops product docUrl).1 = some r
      ∧ r.product_code = product
      ∧ r.api_doc_url = resolvedApiDocUrl ops product docUrl)
    ∧ ((∀ a b, ops.progressive a b = [])
      → (∀ a b, ops.menu a b = [])
      → (∀ a b r, ops.fetchSubcatsDir a b = .ok r → r = [])
      → (fetchApiCategories ops product docUrl).1
          = some ⟨product, resolvedApiDocUrl ops product docUrl, []⟩) := by
  have hU := resolvedApiDocUrl_ne ops product docUrl hBuild
  constructor
  · simp only [fetchApiCategories]
    rw [if_neg hU]
    by_cases h1 : (ops.progressive product docUrl).isEmpty
    · by_cases h2 : (parseApiCategories ops (resolvedApiDocUrl ops product docUrl)
          product).1.isEmpty
      · by_cases h3 : (parseApiCategories ops docUrl product).1.isEmpty
        · simp [h1, h2, h3]
        · simp [h1, h2, h3]
      · simp [h1, h2]
    · simp [h1]
  · intro hProg hMenu hFE
    have h1 : (ops.progressive product docUrl).isEmpty = true := by
      rw [hProg]
      rfl
    have h2 := parse_empty_of_fetch_empty ops (resolvedApiDocUrl ops product docUrl)
      product hFE
    have h3 := parse_empty_of_fetch_empty ops docUrl product hFE
    simp [fetchApiCategories, hU, h1, h2, h3, hMenu]

/-- Sub-procedures that fail or raise everywhere (total fetch failure). -/
def failingOps : StratOps :=
  { findApiDocUrl := fun _ _ => none
    buildApiDocUrl := fun p => BASE ++ "/api/" ++ p ++ "/"
    progressive := fun _ _ => []
    fetchSubcatsDir := fun _ _ => .error "transport failure"
    findApiRefCategory := fun _ _ => .error "transport failure"
    findApiDirUrl := fun _ _ => .error "transport failure"
    menu := fun _ _ => [] }

/-- Witness for the C6 theorem: under total fetch failure the entry point
still returns the dict, with the empty category list. -/
theorem c6_exhaustion_witness :
    (fetchApiCategories failingOps "ecs" "docurl").1
      = some ⟨"ecs", resolvedApiDocUrl failingOps "ecs" "docurl", []⟩ :=
  (c6_returns_normally_and_empty_on_exhaustion failingOps "ecs" "docurl"
      (by decide)).2
    (fun _ _ => rfl) (fun _ _ => rfl) (fun a b r h => by simp [failingOps] at h)

/-! ### The markdown renderer's pruning (claim C8)

`markdown_generator._add_category_content` renders one category node: it
re-fetches the node's API list (through the stateful, visited-guarded
`_fetch_apis_from_category`, abstracted here as the `fetchApis` parameter
threading the visited set), drops the node when both that list and its
subcategory list are empty, and otherwise emits a heading, the rendered
subcategories one level deeper, and one bullet per API. -/

/-- A category tree node as the renderer reads it (`name`, `url`,
`subcategories`; the renderer re-fetches APIs instead of reading a stored
`apis` field). -/
inductive Category where
  | mk (name url : String) (subcategories : List Category)

def Category.name : Category → String
  | .mk n _ _ => n

def Category.url : Category → String
  | .mk _ u _ => u

def Category.subcategories : Category → List Category
  | .mk _ _ s => s

/-- The markdown bullets for the fetched API entries. -/
def apiLines : List ApiLink → List String
  | [] => []
  | a :: rest =>
    (if a.name ≠ "" && a.url ≠ "" then
      (if a.uri ≠ "" then ["- [" ++ a.name ++ " " ++ a.uri ++ "](" ++ a.url ++ ")", ""]
       else ["- [" ++ a.name ++ "](" ++ a.url ++ ")", ""])
     else []) ++ apiLines rest

/-- The `'#' * level` heading of a category. -/
def headingLine (level : Nat) (name : String) : String :=
  ⟨List.replicate level '#'⟩ ++ " " ++ name

mutual

/-- `_add_category_content` for one node: returns the lines contributed and
the updated visited set. -/
def addCategoryContent (fetchApis : String → List String → List ApiLink × List String)
    (visited : List String) (cat : Category) (level : Nat) : List String × List String :=
  match cat with
  | .mk name url subs =>
    if name = "" then ([], visited)
    else
      let r := fetchApis url visited
      if r.1.isEmpty && subs.isEmpty then ([], r.2)
      else
        let sub := addCategoryList fetchApis r.2 subs (level + 1)
        (headingLine level name :: "" :: (sub.1 ++ apiLines r.1), sub.2)

/-- The recursion over a subcategory list. -/
def addCategoryList (fetchApis : String → List String → List ApiLink × List String)
    (visited : List String) : List Category → Nat → List String × List String
  | [], _ => ([], visited)
  | c :: rest, level =>
    let r1 := addCategoryContent fetchApis visited c level
    let r2 := addCategoryList fetchApis r1.2 rest level
    (r1.1 ++ r2.1, r2.2)

end

/-- C8: a subcategory that resolves to zero API pages and has no further
subcategories contributes no output at all (dropped, not retained as a
placeholder); conversely, whenever a node's rendered block is non-empty the
node had a fetched API page or at least one child subcategory.  Quantified
over every behavior of the API-fetching collaborator. -/
theorem c8_empty_branches_pruned
    (fetchApis : String → List String → List ApiLink × List String)
    (visited : List String) (cat : Category) (level : Nat) :
    ((fetchApis cat.url visited).1 = [] → cat.subcategories = [] →
      (addCategoryContent fetchApis visited cat level).1 = [])
    ∧ ((addCategoryContent fetchApis visited cat level).1 ≠ [] →
      (fetchApis cat.url visited).1 ≠ [] ∨ cat.subcategories ≠ []) := by
  rcases cat with ⟨name, url, subs⟩
  have hmain : (fetchApis url visited).1 = [] → subs = [] →
      (addCategoryContent fetchApis visited (.mk name url subs) level).1 = [] := by
    intro hA hS
    subst hS
    by_cases hn : name = ""
    · simp [addCategoryContent, hn]
    · simp [addCategoryContent, hn, hA]
  constructor
  · exact hmain
  · intro hne
    by_contra hcon
    push_neg at hcon
    exact hne (hmain hcon.1 hcon.2)

/-- A collaborator that finds no APIs anywhere. -/
def noApis : String → List String → List ApiLink × List String := fun _ v => ([], v)

/-- Witness for the pruning theorem: a leaf with no APIs renders to nothing. -/
theorem c8_pruning_witness :
    (addCategoryContent noApis [] (.mk "Empty Branch" "u" []) 2).1 = [] :=
  (c8_empty_branches_pruned noApis [] (.mk "Empty Branch" "u" []) 2).1 rfl rfl

end HwApiFetch
